import Mathlib

/-!
Verification development for the `github-ops-a2a-agent` repository.

The repository is a small Python service.  We give a shallow embedding of the
parts relevant to the specification claims:

* `src/github_agent.py` — the structured response format, the terminal-event
  computation `get_agent_response`, the streaming loop `stream`, and the
  pull-request tool `open_github_pr`;
* `src/auth_middleware.py` — the bearer-token middleware `dispatch`;
* `src/util/parse_env.py` — environment parsing `parse_env`;
* `src/util/github_util.py` — repository-URL parsing `parse_github_repo_url`
  (including a model of the path extraction performed by CPython's
  `urllib.parse.urlparse`).

External collaborators (the LLM orchestration framework, the GitHub REST
client, the HTTP server) are modelled as inputs: the stream of state items
produced by the agent graph, the environment mapping, the request path and
header values.
-/

namespace GitHubOps

/-! ## Structured agent responses (`src/github_agent.py`, `AgentResponseFormat`) -/

/-- Embedding of the `Literal['input_required', 'completed', 'error']` status
field of `AgentResponseFormat`. -/
inductive ResponseStatus where
  | input_required
  | completed
  | error
  deriving DecidableEq, Repr

/-- Embedding of the pydantic model `AgentResponseFormat`: a status plus a
message. -/
structure AgentResponseFormat where
  status : ResponseStatus
  message : String
  deriving DecidableEq, Repr

/-- Embedding of the dictionaries yielded by `GitHubAgent.stream` /
`GitHubAgent.get_agent_response`. -/
structure StreamEvent where
  is_task_complete : Bool
  require_user_input : Bool
  content : String
  deriving DecidableEq, Repr

/-- The value found under the key `'structured_response'` in the graph state.
`structured` models a value that passes `isinstance(_, AgentResponseFormat)`;
`other` models any truthy value of a different type (the `isinstance` check in
the code rejects it); absence of the key, and falsy values, are modelled by
`Option.none` at use sites. -/
inductive StateValue where
  | structured (r : AgentResponseFormat)
  | other (descr : String)
  deriving DecidableEq, Repr

/-- The generic fallback event returned at the end of
`GitHubAgent.get_agent_response` when no structured response is available. -/
def fallback_event : StreamEvent :=
  ⟨false, true, "We are unable to process your request at the moment. Please try again."⟩

/-- Embedding of `GitHubAgent.get_agent_response` (src/github_agent.py lines
178–210).  The Python code reads `structured_response` from the graph state,
checks truthiness and `isinstance`, then dispatches on the status in the order
`input_required`, `error`, `completed`, falling through to the fallback. -/
def get_agent_response : Option StateValue → StreamEvent
  | some (.structured r) =>
    if r.status = .input_required then ⟨false, true, r.message⟩
    else if r.status = .error then ⟨false, true, r.message⟩
    else if r.status = .completed then ⟨true, false, r.message⟩
    else fallback_event
  | some (.other _) => fallback_event
  | none => fallback_event

/-! ## The streaming loop (`GitHubAgent.stream`, src/github_agent.py lines 149–176)

The loop iterates over the items produced by `self.graph.stream(...,
stream_mode='values')`; for each item it inspects the *last* message of the
accumulated state.  We model each item by the kind of its last message. -/

/-- The last message of one item of `self.graph.stream`. `aiMessage n` is an
`AIMessage` whose `tool_calls` list has length `n` (the code tests
`message.tool_calls and len(message.tool_calls) > 0`); `toolMessage` is a
`ToolMessage`; `otherMessage` is any other message (e.g. `HumanMessage`). -/
inductive StreamItem where
  | aiMessage (tool_calls : Nat)
  | toolMessage
  | otherMessage
  deriving DecidableEq, Repr

/-- The progress event yielded for an `AIMessage` that carries tool calls. -/
def invoking_event : StreamEvent :=
  ⟨false, false, "Invoking GitHub API..."⟩

/-- The progress event yielded for a `ToolMessage`. -/
def processing_event : StreamEvent :=
  ⟨false, false, "Processing GitHub API response..."⟩

/-- The (optional) progress event yielded by the loop body of
`GitHubAgent.stream` for one item. -/
def progress_event : StreamItem → Option StreamEvent
  | .aiMessage n => if 0 < n then some invoking_event else none
  | .toolMessage => some processing_event
  | .otherMessage => none

/-- Embedding of `GitHubAgent.stream`: the full sequence of events yielded for
one conversation turn, given the item sequence produced by the graph and the
final `structured_response` state value. -/
def stream (items : List StreamItem) (state : Option StateValue) : List StreamEvent :=
  items.filterMap progress_event ++ [get_agent_response state]

/-- Total number of tool calls observed across the items of a turn. -/
def toolCallCount (items : List StreamItem) : Nat :=
  (items.map fun i => match i with | .aiMessage n => n | _ => 0).sum

/-! ## The bearer-token middleware (`src/auth_middleware.py`) -/

/-- Outcome of `BearerAuthMiddleware.dispatch` for one request.
`passthrough` — the request matched the well-known prefix and was forwarded
with no token attached; `rejected` — a `JSONResponse` with the given status
code and `detail` body was returned and `call_next` was never invoked;
`forwarded` — `request.state.token` was set to `token` and the request was
passed to `call_next`. -/
inductive DispatchResult where
  | passthrough
  | rejected (status_code : Nat) (detail : String)
  | forwarded (token : String)
  deriving DecidableEq, Repr

/-- Embedding of `BearerAuthMiddleware.dispatch`.  `auth = none` models a
missing `Authorization` header.  The Python guard is
`if not auth or not auth.lower().startswith("bearer ")`; `not auth` is true
for `None` and for the empty string.  `str.lower` agrees with ASCII
lowercasing on every character that can contribute to a `"bearer "` prefix,
so it is modelled by `Char.toLower`.  The token is
`auth.split(" ", 1)[1]`: everything after the first space. -/
def dispatch (path : String) (auth : Option String) : DispatchResult :=
  if "/.well-known".data.isPrefixOf path.data then .passthrough
  else
    match auth with
    | none => .rejected 401 "Missing or invalid Authorization header"
    | some a =>
      if a = "" ∨ ¬ ("bearer ".data.isPrefixOf (a.data.map Char.toLower) = true) then
        .rejected 401 "Missing or invalid Authorization header"
      else
        .forwarded ⟨(a.data.dropWhile (fun c => c != ' ')).drop 1⟩

/-! ## Environment parsing (`src/util/parse_env.py`) -/

/-- Default GitHub host (`DEFAULT_GITHUB_HOST`). -/
def DEFAULT_GITHUB_HOST : String := "github.com"

/-- Default LLM source (`DEFAULT_LLM_SOURCE`). -/
def DEFAULT_LLM_SOURCE : String := "google"

/-- Embedding of the dataclass `AgentEnvironment`.  The Python fields are
annotated `str` but actually receive `os.environ.get(...)` results, which may
be `None`; we model them as `Option String` where the code passes them
through unchecked. -/
structure AgentEnvironment where
  github_token : Option String
  github_repo : Option String
  github_owner : Option String
  github_host : String
  llm_source : String
  llm_api_key : Option String
  deriving DecidableEq, Repr

/-- Python's `x or default` applied to an `os.environ.get` result: `None` and
the empty string are falsy. -/
def pyOrDefault (v : Option String) (d : String) : String :=
  match v with
  | none => d
  | some s => if s = "" then d else s

/-- Embedding of `parse_env` (src/util/parse_env.py).  The process
environment (after `load_dotenv`) is modelled as a partial map from variable
names to values.  The code raises `EnvironmentError` when
`os.environ.get("GITHUB_TOKEN")` is falsy, i.e. absent *or* the empty
string. -/
def parse_env (env : String → Option String) : Except String AgentEnvironment :=
  if env "GITHUB_TOKEN" = none ∨ env "GITHUB_TOKEN" = some "" then
    .error "Missing required environment variable: GITHUB_TOKEN"
  else
    .ok
      { github_token := env "GITHUB_TOKEN"
        github_repo := env "GITHUB_REPO"
        github_owner := env "GITHUB_OWNER"
        github_host := pyOrDefault (env "GITHUB_HOST") DEFAULT_GITHUB_HOST
        llm_source := pyOrDefault (env "LLM_SOURCE") DEFAULT_LLM_SOURCE
        llm_api_key := env "LLM_API_KEY" }

/-! ## The pull-request tool (`open_github_pr`, src/github_agent.py lines 50–98) -/

/-- The `create_pull` invocation issued against the GitHub client by
`open_github_pr`.  The Python code issues exactly one of two calls: one with
explicit `title`/`body` keyword arguments, or one with an `issue` keyword
argument (the issue object fetched for the given number) and *no*
`title`/`body` arguments. -/
inductive CreatePullCall where
  | withTitleBody (repo : String) (title body : Option String) (head base : String)
  | withIssue (repo : String) (issue : Nat) (head base : String)
  deriving DecidableEq, Repr

/-- Embedding of `open_github_pr`: which `create_pull` call is issued for the
given tool arguments.  The repository handle is obtained from
`gh.get_repo(f"{repo_owner}/{repo_name}")`. -/
def open_github_pr (repo_owner repo_name head_branch base_branch : String)
    (title body : Option String) (related_issue : Option Nat) : CreatePullCall :=
  match related_issue with
  | none => .withTitleBody (repo_owner ++ "/" ++ repo_name) title body head_branch base_branch
  | some i => .withIssue (repo_owner ++ "/" ++ repo_name) i head_branch base_branch

/-! ## Repository-URL parsing (`src/util/github_util.py`, `parse_github_repo_url`)

`parse_github_repo_url` calls CPython's `urllib.parse.urlparse` and then
takes `path.strip("/").split("/")`.  We embed the path extraction of
CPython 3.11's `urlsplit`/`urlparse` (scheme split, netloc split, fragment,
query, params).  The host-validation branches of `urlsplit` that apply only
when the netloc contains a bracket or a non-ASCII character (IPv6/IPvFuture
checking, NFKC normalization checking) are not modelled; inputs reaching
them are mapped to a dedicated `unmodelled` outcome which the theorems
exclude by hypothesis. -/

/-- CPython's `_WHATWG_C0_CONTROL_OR_SPACE` character class: code points
`0x00`–`0x20`. -/
def isC0OrSpace (c : Char) : Bool := c.toNat ≤ 32

/-- CPython's `_UNSAFE_URL_BYTES_TO_REMOVE`: tab, carriage return, newline. -/
def isUnsafeUrlByte (c : Char) : Bool := c == '\t' || c == '\r' || c == '\n'

/-- Preprocessing done by `urlsplit`: left-strip C0-control/space characters,
then delete every tab/CR/LF. -/
def sanitizeUrl (l : List Char) : List Char :=
  (l.dropWhile isC0OrSpace).filter (fun c => !isUnsafeUrlByte c)

/-- CPython's `scheme_chars`: ASCII letters, digits, `+`, `-`, `.`. -/
def schemeChar (c : Char) : Bool := c.isAlphanum || c == '+' || c == '-' || c == '.'

/-- Scheme splitting in `urlsplit`: when the text before the first `:` is
non-empty, starts with an ASCII letter, and consists of scheme characters,
the scheme is that text lowercased and the rest follows the `:`; otherwise
the scheme is empty and the whole input remains. -/
def splitScheme (l : List Char) : List Char × List Char :=
  let before := l.takeWhile (fun c => c != ':')
  match l.dropWhile (fun c => c != ':') with
  | [] => ([], l)
  | _ :: rest =>
    match before with
    | [] => ([], l)
    | c0 :: _ =>
      if c0.isAlpha && before.all schemeChar then (before.map Char.toLower, rest)
      else ([], l)

/-- Delimiters ending the netloc in `_splitnetloc`. -/
def netlocDelim (c : Char) : Bool := c == '/' || c == '?' || c == '#'

/-- Netloc splitting in `urlsplit`: when the (scheme-stripped) url starts with
`//`, the netloc extends to the first of `/`, `?`, `#`; otherwise it is
empty. -/
def splitNetloc (l : List Char) : List Char × List Char :=
  match l with
  | '/' :: '/' :: rest =>
    (rest.takeWhile (fun c => !netlocDelim c), rest.dropWhile (fun c => !netlocDelim c))
  | _ => ([], l)

/-- True when `urlsplit` runs a validation branch we do not model: the netloc
contains `[` or `]` (IPv6/IPvFuture bracket checking, which may raise
`ValueError`) or a non-ASCII character (`_checknetloc` NFKC checking, which
may raise `ValueError`). -/
def netlocNeedsValidation (netloc : List Char) : Bool :=
  netloc.any (fun c => c == '[' || c == ']' || !(c.toNat ≤ 127))

/-- CPython's `uses_params` scheme list (as character lists). -/
def uses_params : List (List Char) :=
  ["", "ftp", "hdl", "prospero", "http", "imap", "https", "shttp", "rtsp",
    "rtsps", "rtspu", "sip", "sips", "mms", "sftp", "tel"].map String.data

/-- CPython's `_splitparams`, restricted to the path it returns: when the
path contains `;`, drop everything from the first `;` of the last
`/`-separated segment onwards (or of the whole path when it has no `/`). -/
def splitParams (p : List Char) : List Char :=
  if ';' ∈ p then
    if '/' ∈ p then
      let revp := p.reverse
      let lastSegRev := revp.takeWhile (fun c => c != '/')
      if ';' ∈ lastSegRev then
        (revp.dropWhile (fun c => c != '/')).reverse
          ++ lastSegRev.reverse.takeWhile (fun c => c != ';')
      else p
    else p.takeWhile (fun c => c != ';')
  else p

/-- Outcome of extracting `urlparse(url).path`. -/
inductive UrlPathResult where
  | ok (path : List Char)
  | unmodelledNetloc
  deriving DecidableEq, Repr

/-- The `path` component computed by `urlparse` when the netloc-validation
branches are skipped: drop the fragment (first `#` on), then the query
(first `?` on), then the params (when the scheme uses them). -/
def urlPath (url : List Char) : List Char :=
  let su := splitScheme (sanitizeUrl url)
  let u3 := ((splitNetloc su.2).2.takeWhile (fun c => c != '#')).takeWhile (fun c => c != '?')
  if uses_params.contains su.1 then splitParams u3 else u3

/-- The `path` component of CPython's `urlparse`, for inputs whose netloc does
not trigger the unmodelled validation branches. -/
def urlparsePath (url : List Char) : UrlPathResult :=
  if netlocNeedsValidation (splitNetloc (splitScheme (sanitizeUrl url)).2).1 then
    .unmodelledNetloc
  else
    .ok (urlPath url)

/-- Python's `s.split(sep)` for a single-character separator: splits into the
(possibly empty) fields between occurrences of the separator; the result is
never empty. -/
def splitOnChar (c : Char) : List Char → List (List Char)
  | [] => [[]]
  | x :: xs =>
    match splitOnChar c xs with
    | [] => [[]]
    | y :: ys => if x = c then [] :: y :: ys else (x :: y) :: ys

/-- Python's `s.strip(c)` for a single-character strip set: remove every
leading and trailing occurrence of `c`. -/
def stripChar (c : Char) (l : List Char) : List Char :=
  ((l.dropWhile (fun x => x == c)).reverse.dropWhile (fun x => x == c)).reverse

/-- Outcome of `parse_github_repo_url`. `invalidRepoUrl` is the `ValueError`
the function itself raises; `unmodelled` marks inputs on which the underlying
`urlparse` runs the netloc-validation branches we do not model. -/
inductive RepoUrlResult where
  | ok (owner name : String)
  | invalidRepoUrl (msg : String)
  | unmodelled
  deriving DecidableEq, Repr

/-- Embedding of `parse_github_repo_url` (src/util/github_util.py lines
14–18): `parts = urlparse(url).path.strip("/").split("/")`; raise
`ValueError` when `len(parts) < 2`; otherwise return `(parts[0],
parts[1])`. -/
def parse_github_repo_url (url : String) : RepoUrlResult :=
  match urlparsePath url.data with
  | .unmodelledNetloc => .unmodelled
  | .ok p =>
    let parts := splitOnChar '/' (stripChar '/' p)
    if parts.length < 2 then .invalidRepoUrl ("Not a valid GitHub repo URL: " ++ url)
    else .ok ⟨parts.getD 0 []⟩ ⟨parts.getD 1 []⟩

/-- The netloc `urlparse` extracts from a URL (used to state the hypothesis
that the unmodelled validation branches are not reached). -/
def netlocOf (url : String) : List Char :=
  (splitNetloc (splitScheme (sanitizeUrl url.data)).2).1

/-- The `parts` list computed by `parse_github_repo_url` on inputs whose
netloc needs no validation. -/
def repoUrlParts (url : String) : List (List Char) :=
  splitOnChar '/' (stripChar '/' (urlPath url.data))

/-! ## Helper notions for the streaming claims -/

/-- Items for which the loop body yields the `invoking` progress event: an
`AIMessage` whose tool-call list is non-empty. -/
def isInvokingItem : StreamItem → Bool
  | .aiMessage n => decide (0 < n)
  | _ => false

/-- Items for which the loop body yields the `processing` progress event: a
`ToolMessage`. -/
def isProcessingItem : StreamItem → Bool
  | .toolMessage => true
  | _ => false

/-- Every terminal event has `is_task_complete` or `require_user_input` set,
so it is never equal to either progress event (whose flags are both
false). -/
theorem get_agent_response_ne_progress (s : Option StateValue) :
    get_agent_response s ≠ invoking_event ∧ get_agent_response s ≠ processing_event := by
  match s with
  | none =>
    refine ⟨?_, ?_⟩ <;> decide
  | some (.other _) =>
    refine ⟨?_, ?_⟩ <;>
      simp [get_agent_response, fallback_event, invoking_event, processing_event,
        StreamEvent.mk.injEq]
  | some (.structured r) =>
    obtain ⟨st, m⟩ := r
    cases st <;>
      simp [get_agent_response, invoking_event, processing_event, fallback_event,
        StreamEvent.mk.injEq]

/-- Counting `invoking` events across the yielded progress events counts the
AI messages that carry tool calls. -/
theorem count_invoking_filterMap (items : List StreamItem) :
    (items.filterMap progress_event).count invoking_event = items.countP isInvokingItem := by
  induction items with
  | nil => rfl
  | cons i t ih =>
    cases i with
    | aiMessage n =>
      by_cases h0 : 0 < n <;>
        simp [progress_event, h0, List.filterMap_cons, List.count_cons, List.countP_cons,
          isInvokingItem, ih]
    | toolMessage =>
      simp [progress_event, List.filterMap_cons, List.count_cons, List.countP_cons,
        isInvokingItem, ih, show ¬ (processing_event = invoking_event) by decide]
    | otherMessage =>
      simp [progress_event, List.filterMap_cons, List.countP_cons, isInvokingItem, ih]

/-- Counting `processing` events across the yielded progress events counts the
tool messages. -/
theorem count_processing_filterMap (items : List StreamItem) :
    (items.filterMap progress_event).count processing_event = items.countP isProcessingItem := by
  induction items with
  | nil => rfl
  | cons i t ih =>
    cases i with
    | aiMessage n =>
      by_cases h0 : 0 < n <;>
        simp [progress_event, h0, List.filterMap_cons, List.count_cons, List.countP_cons,
          isProcessingItem, ih, show ¬ (invoking_event = processing_event) by decide]
    | toolMessage =>
      simp [progress_event, List.filterMap_cons, List.count_cons, List.countP_cons,
        isProcessingItem, ih]
    | otherMessage =>
      simp [progress_event, List.filterMap_cons, List.countP_cons, isProcessingItem, ih]

/-! ## Claims about the conversation-turn terminal event -/

/-- C1: for every turn whose structured response has status `completed`, the
terminal event is `{is_task_complete = true, require_user_input = false,
content = message}`; for status `input_required` (spec: `needs-more-input`)
or `error` it is `{is_task_complete = false, require_user_input = true,
content = message}`; the `error` and `input_required` cases produce
identical events. -/
theorem c1_terminal_event_from_status :
    (∀ r : AgentResponseFormat, r.status = .completed →
        get_agent_response (some (.structured r)) = ⟨true, false, r.message⟩)
    ∧ (∀ r : AgentResponseFormat, r.status = .input_required ∨ r.status = .error →
        get_agent_response (some (.structured r)) = ⟨false, true, r.message⟩)
    ∧ (∀ m : String,
        get_agent_response (some (.structured ⟨.error, m⟩))
          = get_agent_response (some (.structured ⟨.input_required, m⟩))) := by
  refine ⟨?_, ?_, ?_⟩
  · intro r h
    simp [get_agent_response, h]
  · intro r h
    rcases h with h | h <;> simp [get_agent_response, h]
  · intro m
    simp [get_agent_response]

/-- Witness for C1 at concrete structured responses. -/
theorem c1_terminal_event_from_status_witness :
    get_agent_response (some (.structured ⟨.completed, "done"⟩)) = ⟨true, false, "done"⟩
    ∧ get_agent_response (some (.structured ⟨.error, "oops"⟩)) = ⟨false, true, "oops"⟩ :=
  ⟨c1_terminal_event_from_status.1 ⟨.completed, "done"⟩ rfl,
    c1_terminal_event_from_status.2.1 ⟨.error, "oops"⟩ (Or.inr rfl)⟩

/-- C6: when the turn ends with no structured response at all, or with a
state value that is not of the structured-response type, the terminal event
is the fallback with the fixed generic retry message. -/
theorem c6_fallback_terminal_event :
    get_agent_response none
        = ⟨false, true, "We are unable to process your request at the moment. Please try again."⟩
    ∧ ∀ s : String, get_agent_response (some (.other s))
        = ⟨false, true, "We are unable to process your request at the moment. Please try again."⟩ :=
  ⟨rfl, fun _ => rfl⟩

/-! ## Claims about the streaming loop -/

/-- C5 counterexample: a turn whose model message carries two tool calls (a
single `AIMessage` with `len(tool_calls) = 2`, whose results arrive in one
batched state item) has two tool calls but the stream emits only one
`invoking` and one `processing` progress event, refuting "one invoking and
one processing event per tool call". -/
theorem c5_counterexample_batched_tool_calls :
    toolCallCount [.aiMessage 2, .toolMessage] = 2
    ∧ ((stream [.aiMessage 2, .toolMessage]
          (some (.structured ⟨.completed, "done"⟩))).count invoking_event) = 1
    ∧ ((stream [.aiMessage 2, .toolMessage]
          (some (.structured ⟨.completed, "done"⟩))).count processing_event) = 1 := by
  refine ⟨rfl, ?_, ?_⟩ <;> decide

/-- C5 amended: the stream emits exactly one `invoking` event per observed AI
message carrying at least one tool call and exactly one `processing` event
per observed tool-result item; the progress events appear in the order the
items are observed; the terminal status event is always the last event of
the stream. -/
theorem c5_progress_events_and_terminal_order :
    ∀ (items : List StreamItem) (state : Option StateValue),
      (stream items state).count invoking_event = items.countP isInvokingItem
      ∧ (stream items state).count processing_event = items.countP isProcessingItem
      ∧ (stream items state).dropLast = items.filterMap progress_event
      ∧ (stream items state).getLast? = some (get_agent_response state) := by
  intro items state
  refine ⟨?_, ?_, ?_, ?_⟩
  · rw [stream, List.count_append, count_invoking_filterMap]
    have h := (get_agent_response_ne_progress state).1
    simp [List.count_singleton', h]
  · rw [stream, List.count_append, count_processing_filterMap]
    have h := (get_agent_response_ne_progress state).2
    simp [List.count_singleton', h]
  · rw [stream, List.dropLast_concat]
  · rw [stream, List.getLast?_concat]

/-! ## Claims about the pull-request tool -/

/-- C3: when `related_issue` is supplied, the `create_pull` call carries the
issue reference and no explicit title/body (whatever title/body were
supplied); when it is absent, the call carries exactly the supplied title
and body. -/
theorem c3_create_pull_arguments :
    (∀ (ro rn hb bb : String) (title body : Option String) (i : Nat),
        open_github_pr ro rn hb bb title body (some i)
          = .withIssue (ro ++ "/" ++ rn) i hb bb)
    ∧ (∀ (ro rn hb bb : String) (t₁ b₁ t₂ b₂ : Option String) (i : Nat),
        open_github_pr ro rn hb bb t₁ b₁ (some i)
          = open_github_pr ro rn hb bb t₂ b₂ (some i))
    ∧ (∀ (ro rn hb bb : String) (title body : Option String),
        open_github_pr ro rn hb bb title body none
          = .withTitleBody (ro ++ "/" ++ rn) title body hb bb) :=
  ⟨fun _ _ _ _ _ _ _ => rfl, fun _ _ _ _ _ _ _ _ _ => rfl, fun _ _ _ _ _ _ => rfl⟩

/-! ## Claims about environment parsing -/

/-- C7 counterexample: an environment in which `GITHUB_TOKEN` is present but
set to the empty string.  The claim says `parse_env` fails iff the variable
is absent; the code also fails here (Python truthiness), although the
variable is present. -/
theorem c7_counterexample_empty_token :
    parse_env (fun k => if k = "GITHUB_TOKEN" then some "" else none)
        = .error "Missing required environment variable: GITHUB_TOKEN"
    ∧ (fun k => if k = "GITHUB_TOKEN" then some "" else none) "GITHUB_TOKEN" ≠ none := by
  refine ⟨rfl, ?_⟩
  simp

/-- C7 amended: `parse_env` fails with the configuration error iff
`GITHUB_TOKEN` is absent from the environment or set to the empty string;
when it succeeds, the returned environment defaults `github_host` to
`github.com` when `GITHUB_HOST` is unset and `llm_source` to `google` when
`LLM_SOURCE` is unset, and passes token, owner, repo and LLM key through
as-is. -/
theorem c7_parse_env_behaviour :
    (∀ env : String → Option String,
        parse_env env = .error "Missing required environment variable: GITHUB_TOKEN"
          ↔ (env "GITHUB_TOKEN" = none ∨ env "GITHUB_TOKEN" = some ""))
    ∧ (∀ (env : String → Option String) (t : String),
        env "GITHUB_TOKEN" = some t → t ≠ "" →
        ∃ r : AgentEnvironment, parse_env env = .ok r
          ∧ r.github_token = some t
          ∧ (env "GITHUB_HOST" = none → r.github_host = DEFAULT_GITHUB_HOST)
          ∧ (env "LLM_SOURCE" = none → r.llm_source = DEFAULT_LLM_SOURCE)
          ∧ r.github_owner = env "GITHUB_OWNER"
          ∧ r.github_repo = env "GITHUB_REPO"
          ∧ r.llm_api_key = env "LLM_API_KEY") := by
  constructor
  · intro env
    unfold parse_env
    split
    · simp_all
    · simp_all
  · intro env t ht htne
    have hcond : ¬ (env "GITHUB_TOKEN" = none ∨ env "GITHUB_TOKEN" = some "") := by
      rw [ht]
      simp [htne]
    refine ⟨AgentEnvironment.mk (env "GITHUB_TOKEN") (env "GITHUB_REPO") (env "GITHUB_OWNER")
        (pyOrDefault (env "GITHUB_HOST") DEFAULT_GITHUB_HOST)
        (pyOrDefault (env "LLM_SOURCE") DEFAULT_LLM_SOURCE)
        (env "LLM_API_KEY"), ?_, ?_, ?_, ?_, rfl, rfl, rfl⟩
    · unfold parse_env
      rw [if_neg hcond]
    · exact ht
    · intro hh
      simp [hh, pyOrDefault]
    · intro hh
      simp [hh, pyOrDefault]

/-- A concrete environment with only `GITHUB_TOKEN` set. -/
def envTokenOnly : String → Option String :=
  fun k => if k = "GITHUB_TOKEN" then some "tok" else none

/-- Witness for C7 at `envTokenOnly`. -/
theorem c7_parse_env_behaviour_witness :
    ∃ r : AgentEnvironment, parse_env envTokenOnly = .ok r
      ∧ r.github_token = some "tok"
      ∧ (envTokenOnly "GITHUB_HOST" = none → r.github_host = DEFAULT_GITHUB_HOST)
      ∧ (envTokenOnly "LLM_SOURCE" = none → r.llm_source = DEFAULT_LLM_SOURCE)
      ∧ r.github_owner = envTokenOnly "GITHUB_OWNER"
      ∧ r.github_repo = envTokenOnly "GITHUB_REPO"
      ∧ r.llm_api_key = envTokenOnly "LLM_API_KEY" :=
  c7_parse_env_behaviour.2 envTokenOnly "tok" rfl (by decide)

/-! ## Claims about the bearer-token middleware -/

/-- Packing a small codepoint into a `Char` and reading it back is the
identity. -/
theorem char_toNat_ofNat_of_small {n : Nat} (h : n < 55296) : (Char.ofNat n).toNat = n := by
  unfold Char.ofNat
  rw [dif_pos (Or.inl h)]
  rfl

/-- ASCII lowercasing maps only the space character to a space. -/
theorem eq_space_of_toLower_eq_space {c : Char} (h : c.toLower = ' ') : c = ' ' := by
  simp only [Char.toLower] at h
  split at h
  · exfalso
    rename_i hc
    obtain ⟨hlo, hhi⟩ := hc
    have h1 : (Char.ofNat (c.toNat + 32)).toNat = c.toNat + 32 :=
      char_toNat_ofNat_of_small (by omega)
    rw [h] at h1
    have h2 : (' ' : Char).toNat = 32 := rfl
    omega
  · exact h

/-- Splitting a `"Bearer "`-prefixed header at its first space leaves exactly
the trailing token. -/
theorem dropWhile_bearer_prefix (l : List Char) :
    (("Bearer ".data ++ l).dropWhile (fun c => c != ' ')).drop 1 = l := by
  have hB : "Bearer ".data = ['B', 'e', 'a', 'r', 'e', 'r', ' '] := rfl
  rw [hB]
  simp only [List.cons_append, List.nil_append, List.dropWhile_cons,
    show (('B' : Char) != ' ') = true from by decide,
    show (('e' : Char) != ' ') = true from by decide,
    show (('a' : Char) != ' ') = true from by decide,
    show (('r' : Char) != ' ') = true from by decide,
    show ((' ' : Char) != ' ') = false from by decide,
    if_true, if_false, Bool.false_eq_true]
  simp

/-- C4: outside the well-known discovery prefix, a missing header or one that
fails the bearer-shape test is rejected with status 401 and the exact
`detail` body, and `call_next` is never invoked (the result is `rejected`,
not `forwarded`/`passthrough`); a header of the form `Bearer <token>` passes
through with the raw token attached and no further validation. -/
theorem c4_auth_gate_requires_bearer :
    (∀ path : String, ¬ "/.well-known".data.isPrefixOf path.data = true →
        dispatch path none = .rejected 401 "Missing or invalid Authorization header")
    ∧ (∀ (path a : String), ¬ "/.well-known".data.isPrefixOf path.data = true →
        (a = "" ∨ "bearer ".data.isPrefixOf (a.data.map Char.toLower) = false) →
        dispatch path (some a) = .rejected 401 "Missing or invalid Authorization header")
    ∧ (∀ (path t : String), ¬ "/.well-known".data.isPrefixOf path.data = true →
        dispatch path (some ("Bearer " ++ t)) = .forwarded t) := by
  refine ⟨?_, ?_, ?_⟩
  · intro path hp
    unfold dispatch
    rw [if_neg hp]
  · intro path a hp hbad
    unfold dispatch
    rw [if_neg hp]
    dsimp only
    rw [if_pos]
    rcases hbad with hbad | hbad
    · exact Or.inl hbad
    · exact Or.inr (by simp [hbad])
  · intro path t hp
    unfold dispatch
    rw [if_neg hp]
    dsimp only
    have hne : ¬ ("Bearer " ++ t = "") := by
      intro e
      have hlen := congrArg (fun s => s.data.length) e
      simp at hlen
    have hlow : ("Bearer " ++ t).data.map Char.toLower = "bearer ".data ++ t.data.map Char.toLower := by
      rw [String.data_append, List.map_append]
      rw [show ("Bearer ".data.map Char.toLower) = "bearer ".data from by decide]
    have hpre : ("bearer ".data.isPrefixOf (("Bearer " ++ t).data.map Char.toLower)) = true := by
      rw [hlow]
      simp
    rw [if_neg]
    · rw [show (("Bearer " ++ t).data) = "Bearer ".data ++ t.data from String.data_append _ _,
        dropWhile_bearer_prefix]
    · push_neg
      exact ⟨hne, by simp [hpre]⟩

/-- Witness for C4 at a concrete path and token. -/
theorem c4_auth_gate_requires_bearer_witness :
    dispatch "/tasks" none = .rejected 401 "Missing or invalid Authorization header"
    ∧ dispatch "/tasks" (some "Basic xyz")
        = .rejected 401 "Missing or invalid Authorization header"
    ∧ dispatch "/tasks" (some ("Bearer " ++ "tok123")) = .forwarded "tok123" :=
  ⟨c4_auth_gate_requires_bearer.1 "/tasks" (by decide),
    c4_auth_gate_requires_bearer.2.1 "/tasks" "Basic xyz" (by decide) (Or.inr (by decide)),
    c4_auth_gate_requires_bearer.2.2 "/tasks" "tok123" (by decide)⟩

/-- C8: the discovery exemption is a raw string-prefix test: every path whose
string starts with `/.well-known` bypasses the authorization check and is
forwarded with no token attached, including paths such as
`/.well-knownfoo` that are not under the discovery directory. -/
theorem c8_wellknown_prefix_bypass :
    (∀ (path : String) (auth : Option String),
        "/.well-known".data.isPrefixOf path.data = true →
        dispatch path auth = .passthrough)
    ∧ dispatch "/.well-knownfoo" none = .passthrough := by
  constructor
  · intro path auth hp
    unfold dispatch
    rw [if_pos hp]
  · decide

/-- Witness for C8 at a concrete path not under the discovery directory and a
malformed header. -/
theorem c8_wellknown_prefix_bypass_witness :
    dispatch "/.well-knownextra" (some "garbage") = .passthrough :=
  c8_wellknown_prefix_bypass.1 "/.well-knownextra" (some "garbage") (by decide)

/-- C9: the bearer-shape check is case-insensitive and accepts an empty
token: outside the discovery prefix, any header that ASCII-lowercases to
exactly `"bearer "` is accepted and the empty string is attached as the
token. -/
theorem c9_case_insensitive_blank_token :
    ∀ (path a : String), ¬ "/.well-known".data.isPrefixOf path.data = true →
      a.data.map Char.toLower = "bearer ".data →
      dispatch path (some a) = .forwarded "" := by
  intro path a hp hl
  obtain ⟨l⟩ := a
  have hlen : l.length = 7 := by
    have hc := congrArg List.length hl
    simpa using hc
  match l, hlen, hl with
  | [c0, c1, c2, c3, c4, c5, c6], _, hl =>
    have hl' := hl
    simp only [List.map_cons, List.map_nil, show "bearer ".data = ['b', 'e', 'a', 'r', 'e', 'r', ' '] from rfl,
      List.cons.injEq, and_true] at hl'
    obtain ⟨h0, h1, h2, h3, h4, h5, h6⟩ := hl'
    have n0 : c0 ≠ ' ' := fun e => absurd (e ▸ h0) (by decide)
    have n1 : c1 ≠ ' ' := fun e => absurd (e ▸ h1) (by decide)
    have n2 : c2 ≠ ' ' := fun e => absurd (e ▸ h2) (by decide)
    have n3 : c3 ≠ ' ' := fun e => absurd (e ▸ h3) (by decide)
    have n4 : c4 ≠ ' ' := fun e => absurd (e ▸ h4) (by decide)
    have n5 : c5 ≠ ' ' := fun e => absurd (e ▸ h5) (by decide)
    have s6 : c6 = ' ' := eq_space_of_toLower_eq_space h6
    unfold dispatch
    rw [if_neg hp]
    dsimp only
    rw [if_neg]
    · subst s6
      simp only [List.dropWhile_cons,
        show ∀ c : Char, c ≠ ' ' → (c != ' ') = true from fun c hc => by simpa using hc,
        n0, n1, n2, n3, n4, n5,
        show ((' ' : Char) != ' ') = false from by decide, if_true, if_false, Bool.false_eq_true]
      simp [n0, n1, n2, n3, n4, n5]
    · push_neg
      constructor
      · intro e
        have hlen2 := congrArg (fun s => s.data.length) e
        simp at hlen2
      · show List.isPrefixOf ['b', 'e', 'a', 'r', 'e', 'r', ' '] (List.map Char.toLower [c0, c1, c2, c3, c4, c5, c6]) = true
        have hl2 : List.map Char.toLower [c0, c1, c2, c3, c4, c5, c6] = ['b', 'e', 'a', 'r', 'e', 'r', ' '] := hl
        rw [hl2]
        decide

/-- Witness for C9 at a concrete case-variant header. -/
theorem c9_case_insensitive_blank_token_witness :
    dispatch "/tasks" (some "BeArEr ") = .forwarded "" :=
  c9_case_insensitive_blank_token "/tasks" "BeArEr " (by decide) (by decide)

/-! ## Claims about repository-URL parsing -/

/-- Characterization of `parse_github_repo_url` on URLs whose netloc skips
the unmodelled validation branches: the result is determined by the
`parts` list (split of the stripped path). -/
theorem parse_github_repo_url_spec (url : String)
    (hb : netlocNeedsValidation (netlocOf url) = false) :
    parse_github_repo_url url =
      (if (repoUrlParts url).length < 2
        then .invalidRepoUrl ("Not a valid GitHub repo URL: " ++ url)
        else .ok ⟨(repoUrlParts url).getD 0 []⟩ ⟨(repoUrlParts url).getD 1 []⟩) := by
  have hok : urlparsePath url.data = .ok (urlPath url.data) := by
    unfold urlparsePath
    rw [if_neg]
    rw [show (splitNetloc (splitScheme (sanitizeUrl url.data)).2).1 = netlocOf url from rfl, hb]
    simp
  unfold parse_github_repo_url
  rw [hok]
  rfl

/-- C2 counterexample: on `https://github.com/a//b` (whose path has the empty
segment between consecutive slashes) the function returns the pair
`("a", "")`, whose second component is an *empty* path segment, refuting
"returns a pair of exactly two non-empty path segments". -/
theorem c2_counterexample_empty_segment :
    parse_github_repo_url "https://github.com/a//b" = .ok "a" ""
    ∧ ("" : String).data.length = 0 := by
  constructor
  · rfl
  · rfl

/-- C2 amended: for URLs whose netloc does not trigger `urlparse`'s
host-validation branches, `parse_github_repo_url` returns the pair of the
*first two* slash-separated parts of the URL path stripped of leading and
trailing slashes — parts that may be empty when the path contains
consecutive slashes — and raises the validation error iff there are fewer
than two such parts. -/
theorem c2_parse_repo_url_first_two_parts :
    ∀ url : String, netlocNeedsValidation (netlocOf url) = false →
      ((∃ m, parse_github_repo_url url = .invalidRepoUrl m) ↔ (repoUrlParts url).length < 2)
      ∧ (2 ≤ (repoUrlParts url).length →
          parse_github_repo_url url
            = .ok ⟨(repoUrlParts url).getD 0 []⟩ ⟨(repoUrlParts url).getD 1 []⟩) := by
  intro url hb
  rw [parse_github_repo_url_spec url hb]
  constructor
  · constructor
    · rintro ⟨m, hm⟩
      by_contra hlen
      rw [if_neg hlen] at hm
      exact absurd hm (by simp)
    · intro hlen
      rw [if_pos hlen]
      exact ⟨_, rfl⟩
  · intro hlen
    rw [if_neg (by omega)]

/-- Witness for C2 at concrete URLs: a too-short URL raises, a two-segment
URL parses. -/
theorem c2_parse_repo_url_first_two_parts_witness :
    (∃ m, parse_github_repo_url "https://github.com" = .invalidRepoUrl m)
    ∧ parse_github_repo_url "https://github.com/acme/widgets" = .ok "acme" "widgets" :=
  ⟨(c2_parse_repo_url_first_two_parts "https://github.com" (by decide)).1.mpr (by decide),
    (c2_parse_repo_url_first_two_parts "https://github.com/acme/widgets" (by decide)).2
      (by decide)⟩

/-! ## Helper lemmas for the URL-shape claim -/

/-- A list on whose head the predicate fails is left whole by `dropWhile`. -/
theorem dropWhile_eq_self_of_forall (p : Char → Bool) (l : List Char)
    (h : ∀ c ∈ l, p c = false) : l.dropWhile p = l := by
  cases l with
  | nil => rfl
  | cons x xs =>
    rw [List.dropWhile_cons]
    have hx := h x (by simp)
    simp [hx]

/-- Characters above the space codepoint are not C0-control/space. -/
theorem c0_false_of_gt {c : Char} (h : 32 < c.toNat) : isC0OrSpace c = false := by
  unfold isC0OrSpace
  simp
  omega

/-- Characters above the space codepoint are not removed as unsafe bytes. -/
theorem unsafe_false_of_not_c0 {c : Char} (h : isC0OrSpace c = false) :
    isUnsafeUrlByte c = false := by
  unfold isC0OrSpace at h
  have h32 : ¬ c.toNat ≤ 32 := by simpa using h
  unfold isUnsafeUrlByte
  have ht : (c == '\t') = false := by
    apply beq_eq_false_iff_ne.mpr
    intro e
    exact h32 (by rw [e]; decide)
  have hr : (c == '\r') = false := by
    apply beq_eq_false_iff_ne.mpr
    intro e
    exact h32 (by rw [e]; decide)
  have hn : (c == '\n') = false := by
    apply beq_eq_false_iff_ne.mpr
    intro e
    exact h32 (by rw [e]; decide)
  simp [ht, hr, hn]

/-- URL preprocessing is the identity on inputs with no strippable
characters. -/
theorem sanitizeUrl_eq_self {l : List Char} (h : ∀ c ∈ l, isC0OrSpace c = false) :
    sanitizeUrl l = l := by
  unfold sanitizeUrl
  rw [dropWhile_eq_self_of_forall _ _ h]
  rw [List.filter_eq_self.mpr]
  intro a ha
  simp [unsafe_false_of_not_c0 (h a ha)]

/-- Python's single-character split never returns the empty list. -/
theorem splitOnChar_ne_nil (c : Char) (l : List Char) : splitOnChar c l ≠ [] := by
  cases l with
  | nil => simp [splitOnChar]
  | cons x xs =>
    unfold splitOnChar
    cases hxs : splitOnChar c xs with
    | nil => simp
    | cons y ys => by_cases hx : x = c <;> simp [hx]

/-- A leading separator contributes an empty first field. -/
theorem splitOnChar_cons_self (c : Char) (l : List Char) :
    splitOnChar c (c :: l) = [] :: splitOnChar c l := by
  cases hl : splitOnChar c l with
  | nil => exact absurd hl (splitOnChar_ne_nil c l)
  | cons y ys =>
    conv_lhs => rw [splitOnChar]
    rw [hl]
    simp

/-- A leading non-separator character joins the first field. -/
theorem splitOnChar_cons_ne (c x : Char) (l : List Char) (h : ¬ x = c) (y : List Char)
    (ys : List (List Char)) (hl : splitOnChar c l = y :: ys) :
    splitOnChar c (x :: l) = (x :: y) :: ys := by
  conv_lhs => rw [splitOnChar]
  rw [hl]
  simp [h]

/-- Splitting a list whose first separator occurrence follows a
separator-free prefix yields that prefix as the first field. -/
theorem splitOnChar_append (c : Char) (l₁ l₂ : List Char) (h : c ∉ l₁) :
    splitOnChar c (l₁ ++ c :: l₂) = l₁ :: splitOnChar c l₂ := by
  induction l₁ with
  | nil => simpa using splitOnChar_cons_self c l₂
  | cons x xs ih =>
    have hx : ¬ x = c := by
      intro e
      exact h (by simp [e])
    have hxs : c ∉ xs := fun hm => h (by simp [hm])
    rw [List.cons_append]
    exact splitOnChar_cons_ne c x _ hx _ _ (ih hxs)

/-- Splitting a separator-free list yields a single field. -/
theorem splitOnChar_eq_single (c : Char) (l : List Char) (h : c ∉ l) :
    splitOnChar c l = [l] := by
  induction l with
  | nil => rfl
  | cons x xs ih =>
    have hx : ¬ x = c := by
      intro e
      exact h (by simp [e])
    have hxs : c ∉ xs := fun hm => h (by simp [hm])
    exact splitOnChar_cons_ne c x xs hx xs [] (ih hxs)

/-- Scheme splitting on a URL with the literal `https://github.com/` prefix. -/
theorem splitScheme_https_tail (tail : List Char) :
    splitScheme ("https://github.com/".data ++ tail)
      = ("https".data, "//github.com/".data ++ tail) := by
  have e : "https://github.com/".data ++ tail
      = "https".data ++ ':' :: ("//github.com/".data ++ tail) := rfl
  have htw : ("https://github.com/".data ++ tail).takeWhile (fun c => c != ':')
      = "https".data := by
    rw [e, List.takeWhile_append_of_pos (by decide)]
    simp [List.takeWhile_cons]
  have hdw : ("https://github.com/".data ++ tail).dropWhile (fun c => c != ':')
      = ':' :: ("//github.com/".data ++ tail) := by
    rw [e, List.dropWhile_append_of_pos (by decide)]
    simp [List.dropWhile_cons]
  unfold splitScheme
  rw [htw, hdw]
  simp
  constructor
  · decide
  · decide

/-- Netloc splitting on the `//github.com/`-prefixed remainder. -/
theorem splitNetloc_github_tail (tail : List Char) :
    splitNetloc ("//github.com/".data ++ tail) = ("github.com".data, '/' :: tail) := by
  have e : splitNetloc ("//github.com/".data ++ tail)
      = (("github.com".data ++ '/' :: tail).takeWhile (fun c => !netlocDelim c),
          ("github.com".data ++ '/' :: tail).dropWhile (fun c => !netlocDelim c)) := rfl
  rw [e, List.takeWhile_append_of_pos (by decide), List.dropWhile_append_of_pos (by decide)]
  simp [List.takeWhile_cons, List.dropWhile_cons, netlocDelim]

/-- Params splitting is the identity on semicolon-free paths. -/
theorem splitParams_no_semicolon {p : List Char} (h : ';' ∉ p) : splitParams p = p := by
  unfold splitParams
  rw [if_neg h]

/-- Stripping a marker character: the text before the first marker. -/
theorem takeWhile_strip_marker (mark : Char) (l₁ l₂ : List Char)
    (h : ∀ c ∈ l₁, (c != mark) = true) :
    (l₁ ++ mark :: l₂).takeWhile (fun c => c != mark) = l₁ := by
  rw [List.takeWhile_append_of_pos h]
  simp [List.takeWhile_cons]

/-- Characters allowed in the owner/name path segments of the structured URL
of the shape claim: printable and not a path/query/fragment/params
delimiter. -/
abbrev segOk (l : List Char) : Prop :=
  ∀ c ∈ l, 32 < c.toNat ∧ c ≠ '/' ∧ c ≠ '?' ∧ c ≠ '#' ∧ c ≠ ';'

/-- Characters allowed in the extra path segments (slashes permitted). -/
abbrev restOk (l : List Char) : Prop :=
  ∀ c ∈ l, 32 < c.toNat ∧ c ≠ '?' ∧ c ≠ '#' ∧ c ≠ ';'

/-- Characters allowed in the query string. -/
abbrev queryOk (l : List Char) : Prop :=
  ∀ c ∈ l, 32 < c.toNat ∧ c ≠ '#'

/-- Characters allowed in the fragment. -/
abbrev fragOk (l : List Char) : Prop :=
  ∀ c ∈ l, 32 < c.toNat

/-- A segment satisfying `segOk` contains no slash. -/
theorem seg_no_slash {l : List Char} (h : segOk l) : '/' ∉ l :=
  fun hm => (h _ hm).2.1 rfl

/-- The URL shape of the structured part of the claim:
`https://github.com/<owner>/<name>/<rest>?<query>#<fragment>`. -/
def issueStyleUrl (o n rest q f : List Char) : String :=
  ⟨"https://github.com/".data ++ (o ++ '/' :: (n ++ '/' :: (rest ++ '?' :: (q ++ '#' :: f))))⟩

/-- Running the embedded `urlparse` pipeline over a structured URL: the
netloc is `github.com` and the path is `/<owner>/<name>/<rest>` — further
path segments survive into the path, while the query, the fragment and the
params are dropped. -/
theorem url_pipeline_issueStyle (o n rest q f : List Char)
    (hso : segOk o) (hsn : segOk n) (hsr : restOk rest) (hsq : queryOk q) (hsf : fragOk f) :
    netlocOf (issueStyleUrl o n rest q f) = "github.com".data
    ∧ urlPath (issueStyleUrl o n rest q f).data = '/' :: (o ++ '/' :: (n ++ '/' :: rest)) := by
  have hsanU : sanitizeUrl ("https://github.com/".data
        ++ (o ++ '/' :: (n ++ '/' :: (rest ++ '?' :: (q ++ '#' :: f)))))
      = "https://github.com/".data
        ++ (o ++ '/' :: (n ++ '/' :: (rest ++ '?' :: (q ++ '#' :: f)))) := by
    apply sanitizeUrl_eq_self
    intro c hc
    rcases List.mem_append.mp hc with hc | hc
    · exact (show ∀ x ∈ "https://github.com/".data, isC0OrSpace x = false from by decide) c hc
    rcases List.mem_append.mp hc with hc | hc
    · exact c0_false_of_gt (hso c hc).1
    rcases List.mem_cons.mp hc with rfl | hc
    · decide
    rcases List.mem_append.mp hc with hc | hc
    · exact c0_false_of_gt (hsn c hc).1
    rcases List.mem_cons.mp hc with rfl | hc
    · decide
    rcases List.mem_append.mp hc with hc | hc
    · exact c0_false_of_gt (hsr c hc).1
    rcases List.mem_cons.mp hc with rfl | hc
    · decide
    rcases List.mem_append.mp hc with hc | hc
    · exact c0_false_of_gt (hsq c hc).1
    rcases List.mem_cons.mp hc with rfl | hc
    · decide
    exact c0_false_of_gt (hsf c hc)
  have hscheme := splitScheme_https_tail (o ++ '/' :: (n ++ '/' :: (rest ++ '?' :: (q ++ '#' :: f))))
  have hnet := splitNetloc_github_tail (o ++ '/' :: (n ++ '/' :: (rest ++ '?' :: (q ++ '#' :: f))))
  have e1 : '/' :: (o ++ '/' :: (n ++ '/' :: (rest ++ '?' :: (q ++ '#' :: f))))
      = ('/' :: (o ++ '/' :: (n ++ '/' :: (rest ++ '?' :: q)))) ++ '#' :: f := by
    simp
  have h1 : ('/' :: (o ++ '/' :: (n ++ '/' :: (rest ++ '?' :: (q ++ '#' :: f))))).takeWhile
        (fun c => c != '#')
      = '/' :: (o ++ '/' :: (n ++ '/' :: (rest ++ '?' :: q))) := by
    rw [e1]
    apply takeWhile_strip_marker
    intro c hc
    rcases List.mem_cons.mp hc with rfl | hc
    · decide
    rcases List.mem_append.mp hc with hc | hc
    · simpa using (hso c hc).2.2.2.1
    rcases List.mem_cons.mp hc with rfl | hc
    · decide
    rcases List.mem_append.mp hc with hc | hc
    · simpa using (hsn c hc).2.2.2.1
    rcases List.mem_cons.mp hc with rfl | hc
    · decide
    rcases List.mem_append.mp hc with hc | hc
    · simpa using (hsr c hc).2.2.1
    rcases List.mem_cons.mp hc with rfl | hc
    · decide
    simpa using (hsq c hc).2
  have e2 : '/' :: (o ++ '/' :: (n ++ '/' :: (rest ++ '?' :: q)))
      = ('/' :: (o ++ '/' :: (n ++ '/' :: rest))) ++ '?' :: q := by
    simp
  have h2 : ('/' :: (o ++ '/' :: (n ++ '/' :: (rest ++ '?' :: q)))).takeWhile
        (fun c => c != '?')
      = '/' :: (o ++ '/' :: (n ++ '/' :: rest)) := by
    rw [e2]
    apply takeWhile_strip_marker
    intro c hc
    rcases List.mem_cons.mp hc with rfl | hc
    · decide
    rcases List.mem_append.mp hc with hc | hc
    · simpa using (hso c hc).2.2.1
    rcases List.mem_cons.mp hc with rfl | hc
    · decide
    rcases List.mem_append.mp hc with hc | hc
    · simpa using (hsn c hc).2.2.1
    rcases List.mem_cons.mp hc with rfl | hc
    · decide
    simpa using (hsr c hc).2.1
  have hsemi : ';' ∉ '/' :: (o ++ '/' :: (n ++ '/' :: rest)) := by
    intro hc
    rcases List.mem_cons.mp hc with hc | hc
    · exact absurd hc (by decide)
    rcases List.mem_append.mp hc with hc | hc
    · exact (hso _ hc).2.2.2.2 rfl
    rcases List.mem_cons.mp hc with hc | hc
    · exact absurd hc (by decide)
    rcases List.mem_append.mp hc with hc | hc
    · exact (hsn _ hc).2.2.2.2 rfl
    rcases List.mem_cons.mp hc with hc | hc
    · exact absurd hc (by decide)
    exact (hsr _ hc).2.2.2 rfl
  constructor
  · have hd : netlocOf (issueStyleUrl o n rest q f)
        = (splitNetloc (splitScheme (sanitizeUrl ("https://github.com/".data
            ++ (o ++ '/' :: (n ++ '/' :: (rest ++ '?' :: (q ++ '#' :: f))))))).2).1 := rfl
    rw [hd, hsanU, hscheme]
    rw [show ("https".data, "//github.com/".data
        ++ (o ++ '/' :: (n ++ '/' :: (rest ++ '?' :: (q ++ '#' :: f))))).2
      = "//github.com/".data ++ (o ++ '/' :: (n ++ '/' :: (rest ++ '?' :: (q ++ '#' :: f))))
      from rfl, hnet]
  · have hd : urlPath (issueStyleUrl o n rest q f).data
        = urlPath ("https://github.com/".data
            ++ (o ++ '/' :: (n ++ '/' :: (rest ++ '?' :: (q ++ '#' :: f))))) := rfl
    rw [hd]
    unfold urlPath
    rw [hsanU, hscheme]
    dsimp only
    rw [hnet]
    dsimp only
    rw [h1, h2]
    rw [if_pos (by decide)]
    exact splitParams_no_semicolon hsemi

/-- Stripping the surrounding slashes of `/<o>/<n>/<rest>` and splitting on
slashes yields `o` and `n` as the first two parts. -/
theorem strip_split_two_segments (o n rest : List Char) (ho : o ≠ []) (hn : n ≠ [])
    (hso : '/' ∉ o) (hsn : '/' ∉ n) :
    ∃ tail, splitOnChar '/' (stripChar '/' ('/' :: (o ++ '/' :: (n ++ '/' :: rest))))
      = o :: n :: tail := by
  have hL : ('/' :: (o ++ '/' :: (n ++ '/' :: rest))).dropWhile (fun x => x == '/')
      = o ++ '/' :: (n ++ '/' :: rest) := by
    rw [List.dropWhile_cons]
    obtain ⟨oc, ot, he⟩ := List.exists_cons_of_ne_nil ho
    have hoc : (oc == '/') = false := by
      apply beq_eq_false_iff_ne.mpr
      intro e
      apply hso
      rw [he, e]
      exact List.mem_cons_self '/' ot
    rw [he]
    simp [List.cons_append, List.dropWhile_cons, hoc]
  have hrev : (o ++ '/' :: (n ++ '/' :: rest)).reverse
      = rest.reverse ++ '/' :: (n.reverse ++ '/' :: o.reverse) := by
    simp
  have hnrev : n.reverse ≠ [] := by
    simpa using hn
  obtain ⟨m, mt, hm⟩ := List.exists_cons_of_ne_nil hnrev
  have hmc : (m == '/') = false := by
    apply beq_eq_false_iff_ne.mpr
    intro e
    apply hsn
    rw [← List.mem_reverse, hm, e]
    exact List.mem_cons_self '/' mt
  unfold stripChar
  rw [hL, hrev, List.dropWhile_append]
  by_cases hre : (rest.reverse.dropWhile (fun x => x == '/')) = []
  · rw [if_pos (by simp [hre])]
    have hdw : ('/' :: (n.reverse ++ '/' :: o.reverse)).dropWhile (fun x => x == '/')
        = n.reverse ++ '/' :: o.reverse := by
      rw [List.dropWhile_cons]
      rw [hm]
      simp [List.cons_append, List.dropWhile_cons, hmc]
    rw [hdw]
    refine ⟨[], ?_⟩
    have hrr : (n.reverse ++ '/' :: o.reverse).reverse = o ++ '/' :: n := by
      simp
    rw [hrr, splitOnChar_append '/' o n hso, splitOnChar_eq_single '/' n hsn]
  · rw [if_neg (by simp [hre])]
    refine ⟨splitOnChar '/' ((rest.reverse.dropWhile (fun x => x == '/')).reverse), ?_⟩
    have hrr : ((rest.reverse.dropWhile (fun x => x == '/'))
          ++ '/' :: (n.reverse ++ '/' :: o.reverse)).reverse
        = o ++ '/' :: (n ++ '/' :: (rest.reverse.dropWhile (fun x => x == '/')).reverse) := by
      simp
    rw [hrr, splitOnChar_append '/' o _ hso, splitOnChar_append '/' n _ hsn]

/-- C10: for every URL whose path has at least two slash-separated segments
after stripping leading/trailing slashes (and whose netloc skips the
unmodelled validation branches), `parse_github_repo_url` returns exactly the
first two segments; on a structured URL
`https://github.com/<o>/<n>/<rest>?<q>#<f>` the extra path segments, the
query string and the fragment are silently ignored and `(o, n)` is
returned; in particular the full issue URL `https://github.com/a/b/issues/1`
yields `("a", "b")`. -/
theorem c10_first_two_segments_ignore_extras :
    (∀ url : String, netlocNeedsValidation (netlocOf url) = false →
        2 ≤ (repoUrlParts url).length →
        parse_github_repo_url url
          = .ok ⟨(repoUrlParts url).getD 0 []⟩ ⟨(repoUrlParts url).getD 1 []⟩)
    ∧ (∀ o n rest q f : List Char, o ≠ [] → n ≠ [] →
        segOk o → segOk n → restOk rest → queryOk q → fragOk f →
        parse_github_repo_url (issueStyleUrl o n rest q f) = .ok ⟨o⟩ ⟨n⟩)
    ∧ parse_github_repo_url "https://github.com/a/b/issues/1" = .ok "a" "b" := by
  refine ⟨?_, ?_, by rfl⟩
  · intro url hb hlen
    rw [parse_github_repo_url_spec url hb, if_neg (by omega)]
  · intro o n rest q f ho hn hso hsn hsr hsq hsf
    obtain ⟨hnetv, hpath⟩ := url_pipeline_issueStyle o n rest q f hso hsn hsr hsq hsf
    have hb : netlocNeedsValidation (netlocOf (issueStyleUrl o n rest q f)) = false := by
      rw [hnetv]
      decide
    obtain ⟨tail, hparts⟩ : ∃ tail,
        repoUrlParts (issueStyleUrl o n rest q f) = o :: n :: tail := by
      unfold repoUrlParts
      rw [hpath]
      exact strip_split_two_segments o n rest ho hn (seg_no_slash hso) (seg_no_slash hsn)
    rw [parse_github_repo_url_spec _ hb, hparts]
    rw [if_neg (by simp)]
    rfl

/-- Witness for C10 at a concrete issue-style URL carrying extra path
segments, a query and a fragment. -/
theorem c10_first_two_segments_ignore_extras_witness :
    parse_github_repo_url "https://github.com/acme/widgets/issues/42?tab=x#top"
        = .ok "acme" "widgets"
    ∧ parse_github_repo_url
        (issueStyleUrl "acme".data "widgets".data "issues/42".data "tab=x".data "top".data)
        = .ok "acme" "widgets" :=
  ⟨(c10_first_two_segments_ignore_extras.1 "https://github.com/acme/widgets/issues/42?tab=x#top"
      (by decide) (by decide)),
    c10_first_two_segments_ignore_extras.2.1 "acme".data "widgets".data "issues/42".data
      "tab=x".data "top".data (by decide) (by decide) (by decide) (by decide) (by decide)
      (by decide) (by decide)⟩

end GitHubOps
